import Mathlib

/-
Verification of the Telegram group-chat analytics bot (bot + web dashboard).

The development shallowly embeds the TypeScript/SQL sources:
  * JavaScript strings are modelled as Lean `String`s, with the string
    operations used by the code (split on newline, trim, toLowerCase,
    startsWith, includes, slice) implemented over the underlying `List Char`
    so that every definition is executable and kernel-reducible.
  * Database and HTTP effects are modelled by passing the relevant state
    (the stored rows, the provider's HTTP response) as explicit arguments;
    each `analyzeUser` embedding additionally returns the number of HTTP
    requests it issued.
  * JS `Date` values in the local timezone are modelled as a normalized
    civil date (year, month 0-11, day-of-month) plus milliseconds within
    the day; `new Date(y, m, d)`, `setDate` and `setMonth` are implemented
    with the same carry/borrow normalization the JS engine performs.
-/

namespace TgAnalytics

/-! ## JavaScript string primitives (over `List Char`) -/

/-- Whitespace characters recognised by JS `trim` / `\s` on the inputs that
occur here (space, tab, newline, carriage return). -/
def wsChar (c : Char) : Bool :=
  c == ' ' || c == '\t' || c == '\n' || c == '\r'

/-- JS `toLowerCase` restricted to the alphabets occurring in the code:
ASCII `A`-`Z` and Cyrillic `А`-`Я` map down by 32 code points, `Ё` maps to
`ё`. All other characters are fixed (no other Unicode character lowercases
into the Latin/Cyrillic lowercase letters the parsers compare against). -/
def jsLowerChar (c : Char) : Char :=
  if 'A' ≤ c ∧ c ≤ 'Z' then Char.ofNat (c.toNat + 32)
  else if 'А' ≤ c ∧ c ≤ 'Я' then Char.ofNat (c.toNat + 32)
  else if c = 'Ё' then 'ё'
  else c

/-- `trim`: drop whitespace from both ends of a character list. -/
def trimChars (l : List Char) : List Char :=
  ((l.dropWhile wsChar).reverse.dropWhile wsChar).reverse

/-- JS `s.trim()`. -/
def jsTrim (s : String) : String := String.mk (trimChars s.data)

/-- JS `s.split('\n')` on the character list: every `'\n'` separates
(adjacent separators produce empty pieces, like in JS). -/
def splitNl : List Char → List (List Char)
  | [] => [[]]
  | c :: rest =>
    match splitNl rest with
    | [] => [[]]
    | s :: ss => if c = '\n' then [] :: s :: ss else (c :: s) :: ss

/-- `line.toLowerCase().startsWith(label)` for an already-lowercase label. -/
def matchLabel (label line : String) : Bool :=
  label.data.isPrefixOf (line.data.map jsLowerChar)

/-- `line.replace(/^<label>\s*/i, '').trim()`, used when `matchLabel` holds:
drop the label and trim (trimming subsumes the `\s*` in the regex). -/
def labelRemainder (label line : String) : String :=
  String.mk (trimChars (line.data.drop label.data.length))

/-- First index at which `needle` occurs in `hay` (JS `indexOf`-style
search, used to model leftmost regex matching). -/
def findSub (needle : List Char) : List Char → Option Nat
  | [] => if needle.isEmpty then some 0 else none
  | c :: rest =>
    if needle.isPrefixOf (c :: rest) then some 0
    else (findSub needle rest).map (· + 1)

/-- JS `hay.includes(needle)`. -/
def strContains (hay needle : String) : Bool :=
  (findSub needle.data hay.data).isSome

/-! ## The shared analysis-response parser

`parseAnalysisResponse` is triplicated verbatim in the sources
(`GeminiService.parseAnalysisResponse`, `DeepSeekService.parseAnalysisResponse`,
the web route's `parseAnalysisResponse`, and inlined in `QwenService.analyzeUser`);
it is embedded once. -/

/-- The `UserAnalysis` record (`geminiService.ts`). -/
structure UserAnalysis where
  style : String
  topics : String
  averageLength : String
  activity : String
  tone : String
  features : String
  messageCount : Nat
  period : String
deriving DecidableEq, Repr

/-- The five mutable locals of the parsing loop. -/
structure ParseAcc where
  style : String
  topics : String
  activity : String
  tone : String
  features : String
deriving DecidableEq, Repr

/-- Initial values: the per-field "not specified" sentinels. -/
def parseInit : ParseAcc :=
  { style := "Не указан", topics := "Не указаны", activity := "Не указана",
    tone := "Не указана", features := "Не указаны" }

/-- One iteration of the `for (const line of lines)` if/else-if chain. -/
def parseStep (s : ParseAcc) (line : String) : ParseAcc :=
  if matchLabel "стиль:" line then { s with style := labelRemainder "стиль:" line }
  else if matchLabel "темы:" line then { s with topics := labelRemainder "темы:" line }
  else if matchLabel "активность:" line then { s with activity := labelRemainder "активность:" line }
  else if matchLabel "тональность:" line then { s with tone := labelRemainder "тональность:" line }
  else if matchLabel "особенности:" line then { s with features := labelRemainder "особенности:" line }
  else s

/-- `responseText.split('\n').map(l => l.trim()).filter(l => l)`. -/
def nonEmptyTrimmedLines (text : String) : List String :=
  ((splitNl text.data).map (fun l => String.mk (trimChars l))).filter (fun s => s ≠ "")

/-- `parseAnalysisResponse(responseText, messageCount, averageLength)`. -/
def parseAnalysisResponse (responseText : String) (messageCount : Nat)
    (averageLength : Nat) : UserAnalysis :=
  let st := (nonEmptyTrimmedLines responseText).foldl parseStep parseInit
  { style := st.style, topics := st.topics,
    averageLength := toString averageLength ++ " символов",
    activity := st.activity, tone := st.tone, features := st.features,
    messageCount := messageCount, period := "все время" }

/-! ## Prompt building and truncation (shared by the three provider clients) -/

/-- `messages.join('\n')` as a character list. -/
def joinNl : List String → List Char
  | [] => []
  | [s] => s.data
  | s :: rest => s.data ++ '\n' :: joinNl rest

/-- JS `arr.slice(-k)` for a nonnegative `k`: the last `k` elements — except
that `slice(-0)` is `slice(0)` and keeps the whole array. -/
def jsNegSlice (l : List String) (k : Nat) : List String :=
  if k = 0 then l else l.drop (l.length - k)

/-- `Math.floor(messages.length * 0.6)`. The double `0.6` is slightly below
`3/5`, and for every `n` in the realistic range (below `2^50`) the rounded
product `n * 0.6` lies in the same unit interval as `3n/5` (rounding makes it
exactly `3n/5` when `5 ∣ n`), so the floor equals `3 * n / 5` in `Nat`. -/
def truncCount (n : Nat) : Nat := 3 * n / 5

/-- The truncation step of `createAnalysisPrompt` (identical in
`GeminiService`, `DeepSeekService`, `QwenService` and the web route): if the
joined text exceeds 6000 characters, keep `messages.slice(-Math.floor(messages.length * 0.6))`. -/
def truncatedForPrompt (messages : List String) : List String :=
  if 6000 < (joinNl messages).length then jsNegSlice messages (truncCount messages.length)
  else messages

/-- JS `opt || dflt` on an optional string (empty string is falsy). -/
def jsOrStr (o : Option String) (dflt : String) : String :=
  match o with
  | some s => if s = "" then dflt else s
  | none => dflt

/-- `username ? '@' + username : firstName || 'Пользователь'`. -/
def displayNameOf (username firstName : Option String) : String :=
  match username with
  | some u => if u = "" then jsOrStr firstName "Пользователь" else "@" ++ u
  | none => jsOrStr firstName "Пользователь"

/-- `createAnalysisPrompt(messages, username, firstName)`. -/
def createAnalysisPrompt (messages : List String) (username firstName : Option String) : String :=
  let displayName := displayNameOf username firstName
  let messagesText := String.mk (joinNl (truncatedForPrompt messages))
  "Проанализируй стиль общения " ++ displayName ++ " по сообщениям:\n\n" ++ messagesText ++
    "\n\nФормат ответа (только текст, без markdown):\nСтиль: [формальный/неформальный, дружелюбный/строгий]\nТемы: [основные темы через запятую]\nАктивность: [время суток активности, если видно]\nТональность: [позитивная/нейтральная/негативная]\nОсобенности: [частые слова, эмодзи, выражения]\n\nКратко и конкретно."

/-! ## Message fetching for analysis -/

/-- `options?.limit || 30` (JS `||`: an absent or zero limit falls back to 30). -/
def jsOrDefault30 (optLimit : Option Nat) : Nat :=
  match optLimit with
  | some l => if l = 0 then 30 else l
  | none => 30

/-- `const limit = Math.min(options?.limit || 30, 30)` (identical in all
three provider clients). -/
def effectiveLimit (optLimit : Option Nat) : Nat := min (jsOrDefault30 optLimit) 30

/-- `Message.findByUserId(user.id, { limit }).map(msg => msg.text)`:
`store` is the user's stored message texts, newest first; the SQL `LIMIT`
keeps the first `limit` of them. -/
def fetchedMessages (optLimit : Option Nat) (store : List String) : List String :=
  store.take (effectiveLimit optLimit)

/-- `messages.reduce((sum, msg) => sum + msg.length, 0)`. -/
def msgsTotalLen (l : List String) : Nat := (l.map (fun s => s.length)).sum

/-- `Math.round(t / n)` for naturals: round-half-up of the quotient. -/
def jsRoundDiv (t n : Nat) : Nat := (2 * t + n) / (2 * n)

/-! ## Provider clients -/

/-- The user row fields the provider clients read. -/
structure UserRec where
  username : Option String
  first_name : Option String
deriving DecidableEq, Repr

/-- The sentinel returned by every provider when the user has no messages. -/
def insufficientDataAnalysis : UserAnalysis :=
  { style := "Недостаточно данных", topics := "Нет сообщений для анализа",
    averageLength := "0", activity := "Недостаточно данных",
    tone := "Недостаточно данных", features := "Нет данных",
    messageCount := 0, period := "все время" }

/-- An HTTP response as the DeepSeek client observes it: status code, body
text, and the extracted `data.choices?.[0]?.message?.content || ''` of the
parsed JSON body (empty when absent). -/
structure HttpResp where
  status : Nat
  body : String
  content : String
deriving DecidableEq, Repr

/-- `response.ok`: status in the range 200-299. -/
def respOk (r : HttpResp) : Bool := 200 ≤ r.status && r.status ≤ 299

/-- `DeepSeekService.analyzeUser(telegramUserId, options)`. The database is
modelled by `user` (the row found by telegram id, if any) and `store` (that
user's stored message texts, newest first); `resp` is the response to the
single `fetch` the method can make. The second component counts the HTTP
requests issued. -/
def deepseekAnalyzeUser (apiKeyPresent : Bool) (user : Option UserRec)
    (optLimit : Option Nat) (store : List String) (resp : HttpResp) :
    Except String (Option UserAnalysis) × Nat :=
  if !apiKeyPresent then (.error "DEEPSEEK_API_KEY не установлен", 0)
  else
    match user with
    | none => (.ok none, 0)
    | some u =>
      let messages := fetchedMessages optLimit store
      if messages.isEmpty then (.ok (some insufficientDataAnalysis), 0)
      else
        let averageLength := jsRoundDiv (msgsTotalLen messages) messages.length
        let _prompt := createAnalysisPrompt messages u.username u.first_name
        if !(respOk resp) then
          if resp.status = 402 then (.error "DEEPSEEK_INSUFFICIENT_BALANCE", 1)
          else (.error ("DeepSeek API ошибка: " ++ toString resp.status ++ " - " ++ resp.body), 1)
        else
          if resp.content = "" then (.error "Пустой ответ от DeepSeek API", 1)
          else (.ok (some (parseAnalysisResponse resp.content messages.length averageLength)), 1)

/-- One element of an array-shaped Qwen `content`: a plain string part or an
object with an optional `text` field. -/
inductive QwenPart
  | strP (s : String)
  | objP (text : Option String)
deriving DecidableEq, Repr

/-- The `choice.message.content` value of a Qwen completion: a plain string,
an array of parts, or anything else (carried as its `JSON.stringify`). -/
inductive QwenContent
  | strC (s : String)
  | arrC (parts : List QwenPart)
  | otherC (json : String)
deriving DecidableEq, Repr

/-- The content-extraction block of `QwenService.analyzeUser`. -/
def extractQwenText : QwenContent → String
  | .strC s => s
  | .arrC parts => String.join (parts.map fun p => match p with | .strP s => s | .objP t => t.getD "")
  | .otherC j => j

/-- `QwenService.analyzeUser(telegramUserId, options)`; `resp` is the
completion choice content of the single chat-completion request (`none`
models a missing choice/message). -/
def qwenAnalyzeUser (apiKeyPresent : Bool) (user : Option UserRec)
    (optLimit : Option Nat) (store : List String) (resp : Option QwenContent) :
    Except String (Option UserAnalysis) × Nat :=
  if !apiKeyPresent then (.error "DASHSCOPE_API_KEY не установлен, Qwen недоступен", 0)
  else
    match user with
    | none => (.ok none, 0)
    | some u =>
      let messages := fetchedMessages optLimit store
      if messages.isEmpty then (.ok (some insufficientDataAnalysis), 0)
      else
        let averageLength := jsRoundDiv (msgsTotalLen messages) messages.length
        let _prompt := createAnalysisPrompt messages u.username u.first_name
        match resp with
        | none => (.error "Пустой ответ от Qwen API", 1)
        | some content =>
          let analysisText := extractQwenText content
          if analysisText = "" then (.error "Пустой текст ответа от Qwen API", 1)
          else (.ok (some (parseAnalysisResponse analysisText messages.length averageLength)), 1)

/-- `GeminiService.analyzeUser(telegramUserId, options)`. The network phase
(`generateContent` with exponential-backoff retry and model-name fallback) is
abstracted as an oracle `net` mapping the prompt to the analysis text or an
error, together with the number of HTTP requests it made; no claim under
verification depends on its internals, only on whether it is reached. -/
def geminiAnalyzeUser (modelReady apiKeyPresent : Bool) (user : Option UserRec)
    (optLimit : Option Nat) (store : List String)
    (net : String → Except String String × Nat) :
    Except String (Option UserAnalysis) × Nat :=
  if !modelReady && !apiKeyPresent then
    (.error "GEMINI_API_KEY не установлен в переменных окружения", 0)
  else
    match user with
    | none => (.ok none, 0)
    | some u =>
      let messages := fetchedMessages optLimit store
      if messages.isEmpty then (.ok (some insufficientDataAnalysis), 0)
      else
        let averageLength := jsRoundDiv (msgsTotalLen messages) messages.length
        match net (createAnalysisPrompt messages u.username u.first_name) with
        | (.ok analysisText, n) =>
          (.ok (some (parseAnalysisResponse analysisText messages.length averageLength)), n)
        | (.error e, n) => (.error e, n)

/-! ## The message store (`Message.create` over the `messages` table) -/

/-- The argument of `Message.create`. -/
structure CreateMessageData where
  user_id : Int
  telegram_message_id : Int
  chat_id : Int
  text : String
deriving DecidableEq, Repr

/-- A row of the `messages` table (timestamps omitted — no claim uses them). -/
structure MessageRow where
  id : Nat
  user_id : Int
  telegram_message_id : Int
  chat_id : Int
  text : String
deriving DecidableEq, Repr

/-- The `messages` table: its rows and the `SERIAL` counter. -/
structure MessagesTable where
  rows : List MessageRow
  nextId : Nat
deriving DecidableEq, Repr

/-- A stored row conflicts with `d` on the `UNIQUE(telegram_message_id, chat_id)` constraint. -/
def msgKeyClash (r : MessageRow) (d : CreateMessageData) : Bool :=
  r.telegram_message_id == d.telegram_message_id && r.chat_id == d.chat_id

/-- `Message.create`: `INSERT ... ON CONFLICT (telegram_message_id, chat_id)
DO NOTHING RETURNING *` — inserts and returns the new row unless a row with
the same `(telegram_message_id, chat_id)` exists, in which case it returns
no row and leaves the table unchanged. -/
def Message.create (t : MessagesTable) (d : CreateMessageData) :
    Option MessageRow × MessagesTable :=
  if t.rows.any (fun r => msgKeyClash r d) then (none, t)
  else
    let row : MessageRow :=
      { id := t.nextId, user_id := d.user_id,
        telegram_message_id := d.telegram_message_id, chat_id := d.chat_id,
        text := d.text }
    (some row, { rows := t.rows ++ [row], nextId := t.nextId + 1 })

/-- A row with the given `(telegram_message_id, chat_id)` pair is stored. -/
def hasMsgKey (t : MessagesTable) (mid cid : Int) : Bool :=
  t.rows.any (fun r => r.telegram_message_id == mid && r.chat_id == cid)

/-- How many stored rows carry the given `(telegram_message_id, chat_id)` pair. -/
def countMsgKey (t : MessagesTable) (mid cid : Int) : Nat :=
  (t.rows.filter (fun r => r.telegram_message_id == mid && r.chat_id == cid)).length

/-- Run a sequence of `Message.create` calls, keeping the final table. -/
def applyCreates (t : MessagesTable) : List CreateMessageData → MessagesTable
  | [] => t
  | d :: ds => applyCreates (Message.create t d).2 ds

/-! ## StatsService: cache keys and date ranges -/

/-- JS truthiness of the optional numeric `userId` argument. -/
def jsTruthyNum (userId : Option Int) : Bool :=
  match userId with
  | some u => u != 0
  | none => false

/-- `StatsService.getCacheKey(chatId, period, userId?)`: the `if (userId)`
guard uses JS truthiness, so an absent or zero `userId` yields the chat key. -/
def getCacheKey (chatId : Int) (period : String) (userId : Option Int) : String :=
  if jsTruthyNum userId then
    "stats:chat:" ++ toString chatId ++ ":user:" ++ toString (userId.getD 0) ++
      ":period:" ++ period
  else
    "stats:chat:" ++ toString chatId ++ ":period:" ++ period

/-- The cache key computed by `getChatStats` (`getCacheKey(chatId, period)`). -/
def chatStatsCacheKey (chatId : Int) (period : String) : String :=
  getCacheKey chatId period none

/-- The cache key computed by `getUserStats` (`getCacheKey(chatId, period, userId)`). -/
def userStatsCacheKey (chatId : Int) (userId : Int) (period : String) : String :=
  getCacheKey chatId period (some userId)

/-- A local-time instant as JS `Date` getters expose it: calendar year,
month `0`-`11`, day-of-month, and milliseconds within the day. JS represents
dates as day numbers; this embedding keeps the equivalent normalized civil
form and performs the same carry/borrow normalization. -/
structure LocalDT where
  year : Int
  month : Int
  day : Int
  tod : Int
deriving DecidableEq, Repr

/-- Gregorian leap-year test. -/
def isLeap (y : Int) : Bool := (y % 4 == 0 && y % 100 != 0) || y % 400 == 0

/-- Days in month `m` (`0`-`11`, JS numbering) of year `y`: February is 28/29,
April, June, September and November have 30 days, the rest 31. -/
def daysInMonth (y m : Int) : Int :=
  if m = 1 then (if isLeap y then 29 else 28)
  else if m = 3 ∨ m = 5 ∨ m = 8 ∨ m = 10 then 30
  else 31

/-- Day-of-month normalization: borrow/carry whole months until the day is
in range. `fuel` bounds the recursion; callers pass enough fuel for the
distance involved, and every in-range result is a fixed point. -/
def normDayFuel : Nat → Int → Int → Int → Int × Int × Int
  | 0, y, m, d => (y, m, d)
  | Nat.succ fuel, y, m, d =>
    if d < 1 then
      let y' := if m = 0 then y - 1 else y
      let m' := if m = 0 then 11 else m - 1
      normDayFuel fuel y' m' (d + daysInMonth y' m')
    else if daysInMonth y m < d then
      let y' := if m = 11 then y + 1 else y
      let m' := if m = 11 then 0 else m + 1
      normDayFuel fuel y' m' (d - daysInMonth y m)
    else (y, m, d)

/-- `new Date(y, m, d)` at time-of-day `tod`: normalize the month into
`0`-`11` (with year carry, floor semantics as in JS `MakeDay`), then
normalize the day-of-month. -/
def mkLocalDate (y m d tod : Int) : LocalDT :=
  let y1 := y + m / 12
  let m1 := m % 12
  let r := normDayFuel (d.natAbs + 400) y1 m1 d
  { year := r.1, month := r.2.1, day := r.2.2, tod := tod }

/-- `dt.setDate(x)`: replace the day-of-month by `x` and normalize; the time
of day is preserved. -/
def jsSetDate (dt : LocalDT) (x : Int) : LocalDT :=
  let r := normDayFuel (x.natAbs + 400) dt.year dt.month x
  { year := r.1, month := r.2.1, day := r.2.2, tod := dt.tod }

/-- `dt.setMonth(m)`: replace the month (with year carry and day-of-month
normalization); the time of day is preserved. -/
def jsSetMonth (dt : LocalDT) (m : Int) : LocalDT :=
  mkLocalDate dt.year m dt.day dt.tod

/-- `new Date(now.getFullYear(), now.getMonth(), now.getDate())`: local
midnight of the current date. -/
def atMidnight (dt : LocalDT) : LocalDT :=
  mkLocalDate dt.year dt.month dt.day 0

/-- One calendar day earlier (reference function used to state the
`week` property; not part of the source). -/
def prevDay (dt : LocalDT) : LocalDT :=
  if 1 < dt.day then { dt with day := dt.day - 1 }
  else
    let y' := if dt.month = 0 then dt.year - 1 else dt.year
    let m' := if dt.month = 0 then 11 else dt.month - 1
    { year := y', month := m', day := daysInMonth y' m', tod := dt.tod }

/-- Validity of a normalized local date. -/
def ValidDT (dt : LocalDT) : Prop :=
  0 ≤ dt.month ∧ dt.month ≤ 11 ∧ 1 ≤ dt.day ∧ dt.day ≤ daysInMonth dt.year dt.month ∧
    0 ≤ dt.tod ∧ dt.tod < 86400000

instance (dt : LocalDT) : Decidable (ValidDT dt) := by
  unfold ValidDT
  infer_instance

/-- The `{ startDate?, endDate? }` filter object. -/
structure DateRange where
  startDate : Option LocalDT
  endDate : Option LocalDT
deriving DecidableEq, Repr

/-- `StatsService.getDateRange(period)` at current instant `now`:
`today` starts at local midnight, `week` at `setDate(getDate() - 7)`,
`month` at `setMonth(getMonth() - 1)`; `all` (and any unknown period)
imposes no bounds. -/
def getDateRange (period : String) (now : LocalDT) : DateRange :=
  if period = "today" then
    { startDate := some (atMidnight now), endDate := some now }
  else if period = "week" then
    { startDate := some (jsSetDate now (now.day - 7)), endDate := some now }
  else if period = "month" then
    { startDate := some (jsSetMonth now (now.month - 1)), endDate := some now }
  else
    { startDate := none, endDate := none }

/-! ## DigestService: action-items parsing -/

/-- The `actionBlock` local of `DigestService.generateDigest`: the trimmed
first capture of `/Action items:\s*([\s\S]*?)(?:Context:|$)/i` applied to the
raw LLM response, or the empty string when the pattern does not match. The
leftmost match starts at the first case-insensitive occurrence of
`"Action items:"`; the greedy `\s*` then eats whitespace and the lazy group
extends to the first following case-insensitive `"Context:"`, or to the end
of the text if there is none. -/
def digestActionBlockStr (raw : String) : String :=
  let chars := raw.data
  let low := chars.map jsLowerChar
  match findSub "action items:".data low with
  | none => ""
  | some i =>
    let rest := (chars.drop (i + 13)).dropWhile wsChar
    match findSub "context:".data (rest.map jsLowerChar) with
    | none => String.mk (trimChars rest)
    | some k => String.mk (trimChars (rest.take k))

/-- `line.replace(/^-+\s*/, '')`: strip leading bullet markers (one or more
dashes followed by whitespace) — only when the line starts with a dash. -/
def stripBulletLine (l : List Char) : List Char :=
  match l with
  | '-' :: _ => (l.dropWhile (fun c => c == '-')).dropWhile wsChar
  | _ => l

/-- The `actionItems` computation of `DigestService.generateDigest`: an empty
(trimmed) block yields the fixed sentinel; otherwise split into lines, strip
bullet markers, trim, and drop blank lines. -/
def digestActionItems (raw : String) : List String :=
  let actionBlock := digestActionBlockStr raw
  if actionBlock = "" then ["Нет явных задач."]
  else
    ((splitNl actionBlock.data).map (fun l => String.mk (trimChars (stripBulletLine l)))).filter
      (fun s => s ≠ "")

/-! ## The `/analyze` command's provider-fallback loop -/

/-- Provider identifiers, in the loop's priority order. -/
inductive ProvName
  | DeepSeek
  | Qwen
  | Gemini
deriving DecidableEq, Repr

/-- The environment of one `/analyze` run: each provider's `isAvailable()`
and the outcome its `analyzeUser` would produce if invoked (an error models
a thrown exception's `message`; `ok none` models an unknown-user result). -/
structure ProvEnv where
  deepseekAvail : Bool
  qwenAvail : Bool
  geminiAvail : Bool
  deepseekResult : Except String (Option UserAnalysis)
  qwenResult : Except String (Option UserAnalysis)
  geminiResult : Except String (Option UserAnalysis)

def ProvEnv.avail (env : ProvEnv) : ProvName → Bool
  | .DeepSeek => env.deepseekAvail
  | .Qwen => env.qwenAvail
  | .Gemini => env.geminiAvail

def ProvEnv.result (env : ProvEnv) : ProvName → Except String (Option UserAnalysis)
  | .DeepSeek => env.deepseekResult
  | .Qwen => env.qwenResult
  | .Gemini => env.geminiResult

def provServiceName : ProvName → String
  | .DeepSeek => "DeepSeek"
  | .Qwen => "Qwen"
  | .Gemini => "Gemini"

/-- The mutable state of the `for (const provider of providers)` loop, plus
a trace of the providers whose `analyzeUser` was actually invoked. -/
structure LoopSt where
  analysis : Option UserAnalysis
  usedService : String
  lastError : Option String
  deepseekInsufficient : Bool
  invoked : List ProvName
deriving Repr

/-- The provider loop of `handleAnalyzeCommand`: skip unavailable providers,
invoke `analyzeUser` otherwise; a normal return breaks the loop, a thrown
error is recorded (setting the DeepSeek insufficient-balance flag when
applicable) and the next provider is tried. -/
def runProv (env : ProvEnv) : List ProvName → LoopSt → LoopSt
  | [], s => s
  | p :: rest, s =>
    if env.avail p then
      match env.result p with
      | .ok a =>
        { s with
          analysis := a
          usedService := provServiceName p
          invoked := s.invoked ++ [p] }
      | .error e =>
        runProv env rest
          { s with
            lastError := some e
            invoked := s.invoked ++ [p]
            deepseekInsufficient := s.deepseekInsufficient ||
              (p == ProvName.DeepSeek && strContains e "INSUFFICIENT_BALANCE") }
    else runProv env rest s

def loopInit : LoopSt :=
  { analysis := none, usedService := "", lastError := none,
    deepseekInsufficient := false, invoked := [] }

/-- The whole loop over `['DeepSeek', 'Qwen', 'Gemini']`. -/
def analyzeLoop (env : ProvEnv) : LoopSt :=
  runProv env [.DeepSeek, .Qwen, .Gemini] loopInit

def noAltMessage : String :=
  "DeepSeek API: недостаточно средств на счету. Альтернативные API (Qwen / Gemini) недоступны."

def noProviderMessage : String :=
  "Ни один LLM‑провайдер не смог выполнить анализ. Проверьте настройки ключей API."

/-- The `if (!analysis)` error-surfacing block after the loop: the
distinguished no-alternative message when DeepSeek reported insufficient
balance and both Qwen and Gemini are unavailable; otherwise the last
recorded error; otherwise the generic message. -/
def surfaceAnalyze (env : ProvEnv) : Except String UserAnalysis :=
  let r := analyzeLoop env
  match r.analysis with
  | some a => .ok a
  | none =>
    if r.deepseekInsufficient && !env.qwenAvail && !env.geminiAvail then .error noAltMessage
    else
      match r.lastError with
      | some e => .error e
      | none => .error noProviderMessage

/-! ### Characterization of the parser: last matching line wins -/

/-- Overwrite-style accumulator step: a new match replaces the accumulator. -/
def owStep (g : String → Option String) (acc : Option String) (l : String) : Option String :=
  match g l with
  | some v => some v
  | none => acc

/-- The value carried by the last line matching `label`, if any. -/
def lastLabeled (label : String) (lines : List String) : Option String :=
  lines.foldl (owStep (fun l => if matchLabel label l then some (labelRemainder label l) else none)) none

lemma foldl_owStep_some (g : String → Option String) (t : List String) (x : String) :
    t.foldl (owStep g) (some x) = some ((t.foldl (owStep g) none).getD x) := by
  induction t generalizing x with
  | nil => rfl
  | cons h t ih =>
    simp only [List.foldl_cons]
    cases hg : g h with
    | none => simp [owStep, hg, ih]
    | some v => simp [owStep, hg, ih]

lemma lastLabeled_cons_match (label h : String) (t : List String)
    (hm : matchLabel label h = true) :
    lastLabeled label (h :: t) = some ((lastLabeled label t).getD (labelRemainder label h)) := by
  simp only [lastLabeled, List.foldl_cons, owStep, hm, if_pos]
  exact foldl_owStep_some _ t _

lemma lastLabeled_cons_nomatch (label h : String) (t : List String)
    (hm : matchLabel label h = false) :
    lastLabeled label (h :: t) = lastLabeled label t := by
  simp [lastLabeled, owStep, hm]

/-- Two distinct labels (neither a prefix of the other) cannot both match. -/
lemma matchLabel_not_second (p q l : String) (hp : matchLabel p l = true)
    (h1 : p.data.isPrefixOf q.data = false) (h2 : q.data.isPrefixOf p.data = false) :
    matchLabel q l = false := by
  cases hq : matchLabel q l with
  | false => rfl
  | true =>
    exfalso
    unfold matchLabel at hp hq
    rw [List.isPrefixOf_iff_prefix] at hp hq
    rcases le_total p.data.length q.data.length with hle | hle
    · have hpq := List.prefix_of_prefix_length_le hp hq hle
      rw [← List.isPrefixOf_iff_prefix] at hpq
      rw [h1] at hpq
      exact Bool.false_ne_true hpq
    · have hqp := List.prefix_of_prefix_length_le hq hp hle
      rw [← List.isPrefixOf_iff_prefix] at hqp
      rw [h2] at hqp
      exact Bool.false_ne_true hqp

lemma foldl_parseStep_spec (lines : List String) (s : ParseAcc) :
    (lines.foldl parseStep s).style = (lastLabeled "стиль:" lines).getD s.style
    ∧ (lines.foldl parseStep s).topics = (lastLabeled "темы:" lines).getD s.topics
    ∧ (lines.foldl parseStep s).activity = (lastLabeled "активность:" lines).getD s.activity
    ∧ (lines.foldl parseStep s).tone = (lastLabeled "тональность:" lines).getD s.tone
    ∧ (lines.foldl parseStep s).features = (lastLabeled "особенности:" lines).getD s.features := by
  induction lines generalizing s with
  | nil => simp [lastLabeled]
  | cons h t ih =>
    simp only [List.foldl_cons]
    cases m1 : matchLabel "стиль:" h with
    | true =>
      have m2 := matchLabel_not_second "стиль:" "темы:" h m1 (by decide) (by decide)
      have m3 := matchLabel_not_second "стиль:" "активность:" h m1 (by decide) (by decide)
      have m4 := matchLabel_not_second "стиль:" "тональность:" h m1 (by decide) (by decide)
      have m5 := matchLabel_not_second "стиль:" "особенности:" h m1 (by decide) (by decide)
      have hs : parseStep s h = { s with style := labelRemainder "стиль:" h } := by
        simp [parseStep, m1]
      rw [hs]
      obtain ⟨i1, i2, i3, i4, i5⟩ := ih { s with style := labelRemainder "стиль:" h }
      refine ⟨?_, ?_, ?_, ?_, ?_⟩
      · rw [i1, lastLabeled_cons_match _ _ _ m1]; simp
      · rw [i2, lastLabeled_cons_nomatch _ _ _ m2]
      · rw [i3, lastLabeled_cons_nomatch _ _ _ m3]
      · rw [i4, lastLabeled_cons_nomatch _ _ _ m4]
      · rw [i5, lastLabeled_cons_nomatch _ _ _ m5]
    | false =>
    cases m2 : matchLabel "темы:" h with
    | true =>
      have m3 := matchLabel_not_second "темы:" "активность:" h m2 (by decide) (by decide)
      have m4 := matchLabel_not_second "темы:" "тональность:" h m2 (by decide) (by decide)
      have m5 := matchLabel_not_second "темы:" "особенности:" h m2 (by decide) (by decide)
      have hs : parseStep s h = { s with topics := labelRemainder "темы:" h } := by
        simp [parseStep, m1, m2]
      rw [hs]
      obtain ⟨i1, i2, i3, i4, i5⟩ := ih { s with topics := labelRemainder "темы:" h }
      refine ⟨?_, ?_, ?_, ?_, ?_⟩
      · rw [i1, lastLabeled_cons_nomatch _ _ _ m1]
      · rw [i2, lastLabeled_cons_match _ _ _ m2]; simp
      · rw [i3, lastLabeled_cons_nomatch _ _ _ m3]
      · rw [i4, lastLabeled_cons_nomatch _ _ _ m4]
      · rw [i5, lastLabeled_cons_nomatch _ _ _ m5]
    | false =>
    cases m3 : matchLabel "активность:" h with
    | true =>
      have m4 := matchLabel_not_second "активность:" "тональность:" h m3 (by decide) (by decide)
      have m5 := matchLabel_not_second "активность:" "особенности:" h m3 (by decide) (by decide)
      have hs : parseStep s h = { s with activity := labelRemainder "активность:" h } := by
        simp [parseStep, m1, m2, m3]
      rw [hs]
      obtain ⟨i1, i2, i3, i4, i5⟩ := ih { s with activity := labelRemainder "активность:" h }
      refine ⟨?_, ?_, ?_, ?_, ?_⟩
      · rw [i1, lastLabeled_cons_nomatch _ _ _ m1]
      · rw [i2, lastLabeled_cons_nomatch _ _ _ m2]
      · rw [i3, lastLabeled_cons_match _ _ _ m3]; simp
      · rw [i4, lastLabeled_cons_nomatch _ _ _ m4]
      · rw [i5, lastLabeled_cons_nomatch _ _ _ m5]
    | false =>
    cases m4 : matchLabel "тональность:" h with
    | true =>
      have m5 := matchLabel_not_second "тональность:" "особенности:" h m4 (by decide) (by decide)
      have hs : parseStep s h = { s with tone := labelRemainder "тональность:" h } := by
        simp [parseStep, m1, m2, m3, m4]
      rw [hs]
      obtain ⟨i1, i2, i3, i4, i5⟩ := ih { s with tone := labelRemainder "тональность:" h }
      refine ⟨?_, ?_, ?_, ?_, ?_⟩
      · rw [i1, lastLabeled_cons_nomatch _ _ _ m1]
      · rw [i2, lastLabeled_cons_nomatch _ _ _ m2]
      · rw [i3, lastLabeled_cons_nomatch _ _ _ m3]
      · rw [i4, lastLabeled_cons_match _ _ _ m4]; simp
      · rw [i5, lastLabeled_cons_nomatch _ _ _ m5]
    | false =>
    cases m5 : matchLabel "особенности:" h with
    | true =>
      have hs : parseStep s h = { s with features := labelRemainder "особенности:" h } := by
        simp [parseStep, m1, m2, m3, m4, m5]
      rw [hs]
      obtain ⟨i1, i2, i3, i4, i5⟩ := ih { s with features := labelRemainder "особенности:" h }
      refine ⟨?_, ?_, ?_, ?_, ?_⟩
      · rw [i1, lastLabeled_cons_nomatch _ _ _ m1]
      · rw [i2, lastLabeled_cons_nomatch _ _ _ m2]
      · rw [i3, lastLabeled_cons_nomatch _ _ _ m3]
      · rw [i4, lastLabeled_cons_nomatch _ _ _ m4]
      · rw [i5, lastLabeled_cons_match _ _ _ m5]; simp
    | false =>
      have hs : parseStep s h = s := by
        simp [parseStep, m1, m2, m3, m4, m5]
      rw [hs]
      obtain ⟨i1, i2, i3, i4, i5⟩ := ih s
      refine ⟨?_, ?_, ?_, ?_, ?_⟩
      · rw [i1, lastLabeled_cons_nomatch _ _ _ m1]
      · rw [i2, lastLabeled_cons_nomatch _ _ _ m2]
      · rw [i3, lastLabeled_cons_nomatch _ _ _ m3]
      · rw [i4, lastLabeled_cons_nomatch _ _ _ m4]
      · rw [i5, lastLabeled_cons_nomatch _ _ _ m5]

/-- C4: the analysis response parser sets each of the five fields (style,
topics, activity, tone, features) to the remainder of the last non-empty
trimmed line whose prefix case-insensitively matches that field's label,
and to the fixed "not specified" sentinel when no line matches; a
well-formed five-line labeled response yields all five values exactly,
reordering or extra blank lines do not change the result, and a missing
label leaves only that field at its sentinel. -/
theorem parseAnalysisResponse_spec :
    (∀ (text : String) (mc al : Nat),
      (parseAnalysisResponse text mc al).style =
        (lastLabeled "стиль:" (nonEmptyTrimmedLines text)).getD "Не указан"
      ∧ (parseAnalysisResponse text mc al).topics =
        (lastLabeled "темы:" (nonEmptyTrimmedLines text)).getD "Не указаны"
      ∧ (parseAnalysisResponse text mc al).activity =
        (lastLabeled "активность:" (nonEmptyTrimmedLines text)).getD "Не указана"
      ∧ (parseAnalysisResponse text mc al).tone =
        (lastLabeled "тональность:" (nonEmptyTrimmedLines text)).getD "Не указана"
      ∧ (parseAnalysisResponse text mc al).features =
        (lastLabeled "особенности:" (nonEmptyTrimmedLines text)).getD "Не указаны")
    ∧ parseAnalysisResponse
        "Стиль: неформальный\nТемы: работа, спорт\nАктивность: вечер\nТональность: позитивная\nОсобенности: эмодзи"
        5 10 =
      { style := "неформальный", topics := "работа, спорт",
        averageLength := "10 символов", activity := "вечер",
        tone := "позитивная", features := "эмодзи",
        messageCount := 5, period := "все время" }
    ∧ parseAnalysisResponse
        "\nТональность: позитивная\n\nОсобенности: эмодзи\nСтиль: неформальный\n\nТемы: работа, спорт\nАктивность: вечер\n"
        5 10 =
      { style := "неформальный", topics := "работа, спорт",
        averageLength := "10 символов", activity := "вечер",
        tone := "позитивная", features := "эмодзи",
        messageCount := 5, period := "все время" }
    ∧ parseAnalysisResponse
        "Стиль: неформальный\nАктивность: вечер\nТональность: позитивная\nОсобенности: эмодзи"
        5 10 =
      { style := "неформальный", topics := "Не указаны",
        averageLength := "10 символов", activity := "вечер",
        tone := "позитивная", features := "эмодзи",
        messageCount := 5, period := "все время" } := by
  refine ⟨?_, by decide, by decide, by decide⟩
  intro text mc al
  have h := foldl_parseStep_spec (nonEmptyTrimmedLines text) parseInit
  simpa [parseAnalysisResponse, parseInit] using h

/-! ### Prompt truncation (C6) -/

lemma joinNl_cons_le (s : String) (l : List String) :
    (joinNl l).length ≤ (joinNl (s :: l)).length := by
  cases l with
  | nil => simp [joinNl]
  | cons a l =>
    simp only [joinNl, List.length_append, List.length_cons]
    omega

lemma joinNl_drop_le (k : Nat) (l : List String) :
    (joinNl (l.drop k)).length ≤ (joinNl l).length := by
  induction l generalizing k with
  | nil => simp
  | cons s rest ih =>
    cases k with
    | zero => simp
    | succ k =>
      simp only [List.drop_succ_cons]
      exact le_trans (ih k) (joinNl_cons_le s rest)

lemma joinNl_replicate_length (s : String) (n : Nat) :
    (joinNl (List.replicate (n + 1) s)).length = (n + 1) * s.length + n := by
  have hd : s.data.length = s.length := rfl
  induction n with
  | zero => simp [joinNl]
  | succ n ih =>
    rw [List.replicate_succ]
    rw [List.replicate_succ]
    show (s.data ++ '\n' :: joinNl (s :: List.replicate n s)).length = _
    rw [← List.replicate_succ]
    simp only [List.length_append, List.length_cons, ih, hd]
    ring

/-- C6 (amended): when the joined text of `N` messages exceeds the
6000-character budget, the prompt builder retains exactly the last
`floor(N * 0.6)` messages for `N ≥ 2` (the code computes
`slice(-Math.floor(N * 0.6))`, a floor, not a ceiling); for `N = 1` the
count is 0 and `slice(-0)` keeps the single message; in every case the
joined text after truncation is at most the original joined length. -/
theorem createAnalysisPrompt_truncation (messages : List String)
    (hlong : 6000 < (joinNl messages).length) :
    (2 ≤ messages.length →
      truncatedForPrompt messages =
        messages.drop (messages.length - 3 * messages.length / 5)
      ∧ (truncatedForPrompt messages).length = 3 * messages.length / 5)
    ∧ (messages.length = 1 → truncatedForPrompt messages = messages)
    ∧ (joinNl (truncatedForPrompt messages)).length ≤ (joinNl messages).length := by
  have htr : truncatedForPrompt messages = jsNegSlice messages (truncCount messages.length) := by
    simp [truncatedForPrompt, hlong]
  refine ⟨?_, ?_, ?_⟩
  · intro h2
    have hk : ¬(3 * messages.length / 5 = 0) := by omega
    have hslice : jsNegSlice messages (truncCount messages.length) =
        messages.drop (messages.length - 3 * messages.length / 5) := by
      unfold jsNegSlice truncCount
      rw [if_neg hk]
    refine ⟨htr.trans hslice, ?_⟩
    rw [htr, hslice, List.length_drop]
    omega
  · intro h1
    rw [htr, h1]
    simp [jsNegSlice, truncCount]
  · rw [htr]
    unfold jsNegSlice
    split_ifs with h
    · exact le_refl _
    · exact joinNl_drop_le _ _

/-- C6 counterexample: 7 messages of 900 characters join to 6306 > 6000
characters, and the builder keeps the last `Math.floor(7 * 0.6) = 4`
messages — not `ceil(7 * 0.6) = (3 * 7 + 4) / 5 = 5` as the claim states. -/
theorem createAnalysisPrompt_truncation_cx :
    6000 < (joinNl (List.replicate 7 (String.mk (List.replicate 900 'a')))).length
    ∧ (truncatedForPrompt (List.replicate 7 (String.mk (List.replicate 900 'a')))).length = 4
    ∧ ¬((truncatedForPrompt (List.replicate 7 (String.mk (List.replicate 900 'a')))).length
          = (3 * 7 + 4) / 5) := by
  have hl : (String.mk (List.replicate 900 'a')).length = 900 := by
    show (List.replicate 900 'a').length = 900
    exact List.length_replicate 900 'a'
  have hj := joinNl_replicate_length (String.mk (List.replicate 900 'a')) 6
  rw [hl] at hj
  norm_num at hj
  have hlong : 6000 < (joinNl (List.replicate 7 (String.mk (List.replicate 900 'a')))).length := by
    rw [hj]
    norm_num
  have hkeep : (truncatedForPrompt (List.replicate 7 (String.mk (List.replicate 900 'a')))).length = 4 := by
    unfold truncatedForPrompt
    rw [if_pos hlong]
    unfold jsNegSlice truncCount
    norm_num
  exact ⟨hlong, hkeep, by rw [hkeep]; norm_num⟩

/-- Witness for the amended truncation theorem at a concrete long input. -/
theorem createAnalysisPrompt_truncation_witness :
    6000 < (joinNl (List.replicate 5 (String.mk (List.replicate 1300 'b')))).length
    ∧ (truncatedForPrompt (List.replicate 5 (String.mk (List.replicate 1300 'b')))).length = 3 := by
  have hl : (String.mk (List.replicate 1300 'b')).length = 1300 := by
    show (List.replicate 1300 'b').length = 1300
    exact List.length_replicate 1300 'b'
  have hj := joinNl_replicate_length (String.mk (List.replicate 1300 'b')) 4
  rw [hl] at hj
  norm_num at hj
  have hlong : 6000 < (joinNl (List.replicate 5 (String.mk (List.replicate 1300 'b')))).length := by
    rw [hj]
    norm_num
  have h := (createAnalysisPrompt_truncation
    (List.replicate 5 (String.mk (List.replicate 1300 'b'))) hlong).1 (by simp)
  refine ⟨hlong, ?_⟩
  rw [h.2]
  simp

/-! ### The fetch limit (C8) -/

/-- C8 counterexample: a requested limit of 0 is falsy, so `limit || 30`
yields the default 30 and one stored message is fetched even though
`min(0, 30) = 0` — the fetch is not capped at the requested limit. -/
theorem analyzeUser_limit_cx :
    (fetchedMessages (some 0) ["привет"]).length = 1
    ∧ ¬((fetchedMessages (some 0) ["привет"]).length ≤ min 0 30) := by
  decide

/-- C8 (amended): for a positive requested limit the number of fetched
messages is at most `min(limit, 30)`; a zero or absent requested limit falls
back to the default 30 (JS `options?.limit || 30`), so no call ever fetches
more than 30 messages. -/
theorem analyzeUser_limit_cap (optLimit : Option Nat) (store : List String) :
    (fetchedMessages optLimit store).length ≤ 30
    ∧ (∀ l, optLimit = some l → 0 < l →
        (fetchedMessages optLimit store).length ≤ min l 30) := by
  constructor
  · simp only [fetchedMessages]
    exact le_trans (List.length_take_le _ _) (min_le_right _ _)
  · intro l hl hpos
    subst hl
    have hz : ¬(l = 0) := by omega
    simp only [fetchedMessages, effectiveLimit, jsOrDefault30, if_neg hz]
    exact List.length_take_le _ _

/-- Witness for the amended limit theorem at limit 7 over a 9-message store. -/
theorem analyzeUser_limit_cap_witness :
    (fetchedMessages (some 7) ["a", "b", "c", "d", "e", "f", "g", "h", "i"]).length ≤ min 7 30 :=
  (analyzeUser_limit_cap (some 7) ["a", "b", "c", "d", "e", "f", "g", "h", "i"]).2 7 rfl
    (by norm_num)

/-! ### DeepSeek: single request and error mapping (C2) -/

lemma one_le_effectiveLimit (optLimit : Option Nat) : 1 ≤ effectiveLimit optLimit := by
  rcases optLimit with _ | l
  · decide
  · simp only [effectiveLimit, jsOrDefault30]
    split_ifs with h
    · decide
    · have h1 : 1 ≤ l := by omega
      exact le_min h1 (by norm_num)

lemma fetchedMessages_cons_ne_nil (optLimit : Option Nat) (a : String) (rest : List String) :
    (fetchedMessages optLimit (a :: rest)).isEmpty = false := by
  have h := one_le_effectiveLimit optLimit
  rcases he : effectiveLimit optLimit with _ | k
  · omega
  · simp [fetchedMessages, he]

/-- C2: on a known user with at least one stored message, the DeepSeek
client issues exactly one HTTP request whatever the response is (no retry);
a non-success response with status 402 raises the distinguished
`DEEPSEEK_INSUFFICIENT_BALANCE` error, and any other non-success status
raises the generic API error carrying the status code and the body text. -/
theorem deepseek_single_request_error_mapping (u : UserRec) (optLimit : Option Nat)
    (a : String) (rest : List String) (resp : HttpResp) :
    (deepseekAnalyzeUser true (some u) optLimit (a :: rest) resp).2 = 1
    ∧ (respOk resp = false → resp.status = 402 →
        (deepseekAnalyzeUser true (some u) optLimit (a :: rest) resp).1 =
          .error "DEEPSEEK_INSUFFICIENT_BALANCE")
    ∧ (respOk resp = false → ¬(resp.status = 402) →
        (deepseekAnalyzeUser true (some u) optLimit (a :: rest) resp).1 =
          .error ("DeepSeek API ошибка: " ++ toString resp.status ++ " - " ++ resp.body)) := by
  have hne := fetchedMessages_cons_ne_nil optLimit a rest
  refine ⟨?_, ?_, ?_⟩
  · simp only [deepseekAnalyzeUser, hne, Bool.not_true, Bool.false_eq_true, if_false]
    split_ifs <;> rfl
  · intro hok h402
    simp [deepseekAnalyzeUser, hne, hok, h402]
  · intro hok h402
    simp [deepseekAnalyzeUser, hne, hok, h402]

/-- Witness: a 402 response to a one-message user yields exactly one request
and the distinguished insufficient-balance error. -/
theorem deepseek_single_request_error_mapping_witness :
    (deepseekAnalyzeUser true (some ⟨none, none⟩) none ["Привет"]
      ⟨402, "Insufficient Balance", ""⟩).2 = 1
    ∧ (deepseekAnalyzeUser true (some ⟨none, none⟩) none ["Привет"]
        ⟨402, "Insufficient Balance", ""⟩).1 = .error "DEEPSEEK_INSUFFICIENT_BALANCE" := by
  have h := deepseek_single_request_error_mapping ⟨none, none⟩ none "Привет" []
    ⟨402, "Insufficient Balance", ""⟩
  exact ⟨h.1, h.2.1 (by decide) rfl⟩

/-! ### Zero-message analysis (C7) -/

/-- C7: each provider client, called on a known user with zero stored
messages, returns the fixed "insufficient data" sentinel (whose
`messageCount` is 0) and issues no network request. -/
theorem analyzeUser_zero_messages (u : UserRec) (optLimit : Option Nat)
    (resp : HttpResp) (qresp : Option QwenContent)
    (net : String → Except String String × Nat)
    (gReady gKey : Bool) (hg : gReady = true ∨ gKey = true) :
    deepseekAnalyzeUser true (some u) optLimit [] resp = (.ok (some insufficientDataAnalysis), 0)
    ∧ qwenAnalyzeUser true (some u) optLimit [] qresp = (.ok (some insufficientDataAnalysis), 0)
    ∧ geminiAnalyzeUser gReady gKey (some u) optLimit [] net = (.ok (some insufficientDataAnalysis), 0)
    ∧ insufficientDataAnalysis.messageCount = 0 := by
  have hempty : (fetchedMessages optLimit []).isEmpty = true := by
    simp [fetchedMessages]
  refine ⟨?_, ?_, ?_, rfl⟩
  · simp [deepseekAnalyzeUser, hempty]
  · simp [qwenAnalyzeUser, hempty]
  · rcases hg with hg | hg <;> subst hg <;> simp [geminiAnalyzeUser, hempty]

/-- Witness: the zero-message sentinel at a concrete user and environment. -/
theorem analyzeUser_zero_messages_witness :
    deepseekAnalyzeUser true (some ⟨some "alice", none⟩) (some 30) [] ⟨200, "", "x"⟩ =
      (.ok (some insufficientDataAnalysis), 0)
    ∧ qwenAnalyzeUser true (some ⟨some "alice", none⟩) (some 30) [] none =
      (.ok (some insufficientDataAnalysis), 0) := by
  have h := analyzeUser_zero_messages ⟨some "alice", none⟩ (some 30) ⟨200, "", "x"⟩ none
    (fun _ => (.ok "", 0)) true true (Or.inl rfl)
  exact ⟨h.1, h.2.1⟩

/-! ### Idempotent message ingestion (C3) -/

lemma anyClash_eq_hasMsgKey (t : MessagesTable) (d : CreateMessageData) :
    (t.rows.any fun r => msgKeyClash r d) = hasMsgKey t d.telegram_message_id d.chat_id := rfl

lemma Message.create_dup (t : MessagesTable) (d : CreateMessageData)
    (h : hasMsgKey t d.telegram_message_id d.chat_id = true) :
    Message.create t d = (none, t) := by
  unfold Message.create
  rw [anyClash_eq_hasMsgKey, h]
  simp

lemma hasMsgKey_create (t : MessagesTable) (d : CreateMessageData) (mid cid : Int)
    (h : hasMsgKey t mid cid = true) :
    hasMsgKey (Message.create t d).2 mid cid = true := by
  unfold Message.create
  split_ifs with hc
  · exact h
  · unfold hasMsgKey at h ⊢
    simp [List.any_append, h]

lemma countMsgKey_eq_zero (t : MessagesTable) (mid cid : Int)
    (h : hasMsgKey t mid cid = false) : countMsgKey t mid cid = 0 := by
  unfold hasMsgKey at h
  unfold countMsgKey
  simp only [List.any_eq_false] at h
  simp only [List.length_eq_zero, List.filter_eq_nil_iff]
  exact h

lemma create_preserves_count (t : MessagesTable) (d' : CreateMessageData) (mid cid : Int)
    (h : hasMsgKey t mid cid = true) :
    countMsgKey (Message.create t d').2 mid cid = countMsgKey t mid cid := by
  unfold Message.create
  split_ifs with hc
  · rfl
  · unfold countMsgKey
    simp only [List.filter_append, List.length_append]
    cases hkey : ((d'.telegram_message_id == mid) && (d'.chat_id == cid)) with
    | true =>
      exfalso
      rw [Bool.and_eq_true, beq_iff_eq, beq_iff_eq] at hkey
      obtain ⟨h1, h2⟩ := hkey
      unfold hasMsgKey at h
      rw [List.any_eq_true] at h
      obtain ⟨r, hr, hp⟩ := h
      apply hc
      rw [List.any_eq_true]
      refine ⟨r, hr, ?_⟩
      rw [Bool.and_eq_true, beq_iff_eq, beq_iff_eq] at hp
      simp [msgKeyClash, hp.1, hp.2, h1, h2]
    | false =>
      have hnil : (List.filter
          (fun r => r.telegram_message_id == mid && r.chat_id == cid)
          [({ id := t.nextId, user_id := d'.user_id,
              telegram_message_id := d'.telegram_message_id, chat_id := d'.chat_id,
              text := d'.text } : MessageRow)]) = [] := by
        simp only [List.filter, hkey]
      rw [hnil]
      simp

lemma countMsgKey_create_fresh (t : MessagesTable) (d : CreateMessageData)
    (h : hasMsgKey t d.telegram_message_id d.chat_id = false) :
    countMsgKey (Message.create t d).2 d.telegram_message_id d.chat_id =
      countMsgKey t d.telegram_message_id d.chat_id + 1 := by
  unfold Message.create
  rw [anyClash_eq_hasMsgKey, h]
  simp only [Bool.false_eq_true, if_false]
  unfold countMsgKey
  simp [List.filter_append]

lemma hasMsgKey_applyCreates (ds : List CreateMessageData) (t : MessagesTable) (mid cid : Int)
    (h : hasMsgKey t mid cid = true) :
    hasMsgKey (applyCreates t ds) mid cid = true := by
  induction ds generalizing t with
  | nil => exact h
  | cons d ds ih => exact ih _ (hasMsgKey_create t d mid cid h)

lemma countMsgKey_applyCreates (ds : List CreateMessageData) (t : MessagesTable) (mid cid : Int)
    (h : hasMsgKey t mid cid = true) :
    countMsgKey (applyCreates t ds) mid cid = countMsgKey t mid cid := by
  induction ds generalizing t with
  | nil => rfl
  | cons d ds ih =>
    show countMsgKey (applyCreates (Message.create t d).2 ds) mid cid = _
    rw [ih _ (hasMsgKey_create t d mid cid h), create_preserves_count t d mid cid h]

/-- C3: inserting a message whose `(telegram_message_id, chat_id)` pair is
not yet stored returns the inserted row and appends it; after that, any
later `Message.create` with the same pair — across any interleaved inserts —
returns `none` (no error) and leaves the table unchanged, and exactly one
row with that pair is ever stored. -/
theorem message_create_idempotent (t : MessagesTable) (d : CreateMessageData)
    (hfresh : hasMsgKey t d.telegram_message_id d.chat_id = false) :
    (Message.create t d).1 =
      some { id := t.nextId, user_id := d.user_id,
             telegram_message_id := d.telegram_message_id, chat_id := d.chat_id,
             text := d.text }
    ∧ (Message.create t d).2.rows =
        t.rows ++ [{ id := t.nextId, user_id := d.user_id,
                     telegram_message_id := d.telegram_message_id, chat_id := d.chat_id,
                     text := d.text }]
    ∧ (∀ (ds : List CreateMessageData) (d2 : CreateMessageData),
        d2.telegram_message_id = d.telegram_message_id → d2.chat_id = d.chat_id →
        Message.create (applyCreates (Message.create t d).2 ds) d2 =
          (none, applyCreates (Message.create t d).2 ds))
    ∧ (∀ ds : List CreateMessageData,
        countMsgKey (applyCreates (Message.create t d).2 ds)
          d.telegram_message_id d.chat_id = 1) := by
  have hkey : hasMsgKey (Message.create t d).2 d.telegram_message_id d.chat_id = true := by
    unfold Message.create
    rw [anyClash_eq_hasMsgKey, hfresh]
    simp [hasMsgKey, List.any_append]
  refine ⟨?_, ?_, ?_, ?_⟩
  · unfold Message.create
    rw [anyClash_eq_hasMsgKey, hfresh]
    simp
  · unfold Message.create
    rw [anyClash_eq_hasMsgKey, hfresh]
    simp
  · intro ds d2 h1 h2
    apply Message.create_dup
    rw [h1, h2]
    exact hasMsgKey_applyCreates ds _ _ _ hkey
  · intro ds
    rw [countMsgKey_applyCreates ds _ _ _ hkey,
      countMsgKey_create_fresh t d hfresh, countMsgKey_eq_zero t _ _ hfresh]

/-- Witness: inserting a concrete message into an empty table succeeds, and
re-inserting the same `(telegram_message_id, chat_id)` immediately after
returns no row and changes nothing. -/
theorem message_create_idempotent_witness :
    (Message.create { rows := [], nextId := 1 }
        { user_id := 1, telegram_message_id := 100, chat_id := -500, text := "привет" }).1 =
      some { id := 1, user_id := 1, telegram_message_id := 100, chat_id := -500, text := "привет" }
    ∧ Message.create
        (applyCreates (Message.create { rows := [], nextId := 1 }
          { user_id := 1, telegram_message_id := 100, chat_id := -500, text := "привет" }).2 [])
        { user_id := 2, telegram_message_id := 100, chat_id := -500, text := "другой текст" } =
      (none, applyCreates (Message.create { rows := [], nextId := 1 }
          { user_id := 1, telegram_message_id := 100, chat_id := -500, text := "привет" }).2 []) := by
  have h := message_create_idempotent { rows := [], nextId := 1 }
    { user_id := 1, telegram_message_id := 100, chat_id := -500, text := "привет" } (by decide)
  exact ⟨h.1, h.2.2.1 [] { user_id := 2, telegram_message_id := 100, chat_id := -500, text := "другой текст" } rfl rfl⟩

/-! ### StatsService cache keys (C10) -/

/-- C10: `getCacheKey` omits the user component for a falsy `userId`, so
`getUserStats` called with `userId = 0` computes exactly the chat-level key
`stats:chat:<chatId>:period:<period>` of `getChatStats` — user-0 statistics
and chat-wide statistics share a single cache entry. -/
theorem getCacheKey_user_zero (chatId : Int) (period : String) :
    userStatsCacheKey chatId 0 period = chatStatsCacheKey chatId period
    ∧ userStatsCacheKey chatId 0 period =
        "stats:chat:" ++ toString chatId ++ ":period:" ++ period := by
  constructor <;> rfl

/-! ### Digest action items (C5) -/

/-- C5 counterexample: a non-blank "Action items:" section consisting of a
lone bullet marker parses to the empty list — not to the sentinel — because
the sentinel replacement tests the raw section text, not the parsed list. -/
theorem digestActionItems_cx :
    digestActionItems "Action items:\n-\nContext: Темы" = [] := by decide

/-- C5 (amended): an empty "Action items:" section (empty trimmed block)
yields exactly the one-element "no explicit tasks" sentinel list, and a
three-bullet section yields exactly the three trimmed, marker-stripped
entries in the original order; the resulting list is however not always
nonempty — a non-blank section whose every line is blank after
bullet-stripping parses to the empty list. -/
theorem digestActionItems_spec :
    (∀ raw : String, digestActionBlockStr raw = "" →
      digestActionItems raw = ["Нет явных задач."])
    ∧ digestActionItems
        "Summary:\n- обсуждение\nAction items:\n- Задача один\n- Задача два\n- Задача три\nContext:\nТемы: дела\nТон: нейтральный"
        = ["Задача один", "Задача два", "Задача три"] := by
  refine ⟨?_, by decide⟩
  intro raw h
  simp [digestActionItems, h]

/-- Witness: an LLM response without an action-items section yields the
sentinel singleton. -/
theorem digestActionItems_spec_witness :
    digestActionItems "Summary: обсуждение" = ["Нет явных задач."] :=
  digestActionItems_spec.1 "Summary: обсуждение" (by decide)

/-! ### StatsService date ranges (C9) -/

lemma daysInMonth_ge_28 (y m : Int) : 28 ≤ daysInMonth y m := by
  unfold daysInMonth
  split_ifs <;> omega

lemma daysInMonth_eleven (y : Int) : daysInMonth y 11 = 31 := by
  norm_num [daysInMonth]

lemma daysInMonth_zero (y : Int) : daysInMonth y 0 = 31 := by
  norm_num [daysInMonth]

lemma normDayFuel_fix (fuel : Nat) (y m d : Int) (h1 : 1 ≤ d)
    (h2 : d ≤ daysInMonth y m) :
    normDayFuel fuel y m d = (y, m, d) := by
  cases fuel with
  | zero => rfl
  | succ fuel =>
    unfold normDayFuel
    rw [if_neg (by omega), if_neg (by omega)]

lemma normDayFuel_borrow_once (fuel : Nat) (y m d : Int) (hd0 : d < 1)
    (hge : 1 ≤ d + daysInMonth (if m = 0 then y - 1 else y) (if m = 0 then 11 else m - 1)) :
    normDayFuel (fuel + 1) y m d =
      (if m = 0 then y - 1 else y, if m = 0 then 11 else m - 1,
        d + daysInMonth (if m = 0 then y - 1 else y) (if m = 0 then 11 else m - 1)) := by
  have hle : d + daysInMonth (if m = 0 then y - 1 else y) (if m = 0 then 11 else m - 1) ≤
      daysInMonth (if m = 0 then y - 1 else y) (if m = 0 then 11 else m - 1) := by omega
  unfold normDayFuel
  rw [if_pos hd0]
  exact normDayFuel_fix fuel _ _ _ hge hle

lemma atMidnight_eq (now : LocalDT) (h : ValidDT now) :
    atMidnight now = { year := now.year, month := now.month, day := now.day, tod := 0 } := by
  obtain ⟨h1, h2, h3, h4, h5, h6⟩ := h
  unfold atMidnight mkLocalDate
  have e1 : now.year + now.month / 12 = now.year := by omega
  have e2 : now.month % 12 = now.month := by omega
  simp only [e1, e2, normDayFuel_fix _ _ _ _ h3 h4]

lemma prevDay_iter_sub (k : Nat) : ∀ (dt : LocalDT), (k : Int) < dt.day →
    prevDay^[k] dt = { dt with day := dt.day - k } := by
  induction k with
  | zero =>
    intro dt hlt
    simp
  | succ k ih =>
    intro dt hlt
    obtain ⟨Y, M, D, T⟩ := dt
    have hD : ((k : Int) + 1) < D := by
      have : (((k + 1 : Nat) : Int)) < D := hlt
      push_cast at this
      omega
    rw [Function.iterate_succ_apply]
    have hp : prevDay ⟨Y, M, D, T⟩ = ⟨Y, M, D - 1, T⟩ := by
      unfold prevDay
      rw [if_pos (by omega : (1 : Int) < D)]
    rw [hp, ih ⟨Y, M, D - 1, T⟩ (by show (k : Int) < D - 1; omega)]
    have hday : D - 1 - (k : Int) = D - ((k + 1 : Nat) : Int) := by
      push_cast
      ring
    show (⟨Y, M, D - 1 - (k : Int), T⟩ : LocalDT) = ⟨Y, M, D - ((k + 1 : Nat) : Int), T⟩
    rw [hday]

lemma jsSetDate_week (now : LocalDT) (h : ValidDT now) :
    jsSetDate now (now.day - 7) = prevDay^[7] now := by
  obtain ⟨Y, M, D, T⟩ := now
  obtain ⟨h1, h2, h3, h4, h5, h6⟩ := h
  have h1' : (0 : Int) ≤ M := h1
  have h2' : M ≤ (11 : Int) := h2
  have h3' : (1 : Int) ≤ D := h3
  have h4' : D ≤ daysInMonth Y M := h4
  show jsSetDate ⟨Y, M, D, T⟩ (D - 7) = prevDay^[7] ⟨Y, M, D, T⟩
  by_cases h8 : 8 ≤ D
  · have e1 : jsSetDate ⟨Y, M, D, T⟩ (D - 7) = ⟨Y, M, D - 7, T⟩ := by
      simp only [jsSetDate]
      rw [normDayFuel_fix _ _ _ _ (by omega) (by omega)]
    rw [e1, prevDay_iter_sub 7 ⟨Y, M, D, T⟩ (by show (7 : Int) < D; omega)]
    show (⟨Y, M, D - 7, T⟩ : LocalDT) = ⟨Y, M, D - ((7 : Nat) : Int), T⟩
    norm_num
  · have h28 := daysInMonth_ge_28 (if M = 0 then Y - 1 else Y) (if M = 0 then 11 else M - 1)
    have e1 : jsSetDate ⟨Y, M, D, T⟩ (D - 7) =
        ⟨if M = 0 then Y - 1 else Y, if M = 0 then 11 else M - 1,
          D - 7 + daysInMonth (if M = 0 then Y - 1 else Y) (if M = 0 then 11 else M - 1), T⟩ := by
      simp only [jsSetDate]
      rw [show (D - 7).natAbs + 400 = ((D - 7).natAbs + 399) + 1 from rfl]
      rw [normDayFuel_borrow_once _ _ _ _ (by omega) (by omega)]
    rw [e1]
    have hsplit : (7 : Nat) = (7 - D.toNat) + (1 + (D.toNat - 1)) := by omega
    rw [hsplit, Function.iterate_add_apply, Function.iterate_add_apply]
    rw [prevDay_iter_sub (D.toNat - 1) ⟨Y, M, D, T⟩ (by show ((D.toNat - 1 : Nat) : Int) < D; omega)]
    have hone : D - ((D.toNat - 1 : Nat) : Int) = 1 := by omega
    show _ = prevDay^[7 - D.toNat] (prevDay^[1] ⟨Y, M, D - ((D.toNat - 1 : Nat) : Int), T⟩)
    rw [hone, Function.iterate_one]
    have hpb : prevDay ⟨Y, M, 1, T⟩ =
        ⟨if M = 0 then Y - 1 else Y, if M = 0 then 11 else M - 1,
          daysInMonth (if M = 0 then Y - 1 else Y) (if M = 0 then 11 else M - 1), T⟩ := by
      unfold prevDay
      rw [if_neg (by norm_num)]
    rw [hpb]
    rw [prevDay_iter_sub (7 - D.toNat) _
      (by show ((7 - D.toNat : Nat) : Int) < daysInMonth (if M = 0 then Y - 1 else Y) (if M = 0 then 11 else M - 1); omega)]
    have hday : daysInMonth (if M = 0 then Y - 1 else Y) (if M = 0 then 11 else M - 1) -
        ((7 - D.toNat : Nat) : Int) =
        D - 7 + daysInMonth (if M = 0 then Y - 1 else Y) (if M = 0 then 11 else M - 1) := by
      omega
    show (⟨if M = 0 then Y - 1 else Y, if M = 0 then 11 else M - 1,
          D - 7 + daysInMonth (if M = 0 then Y - 1 else Y) (if M = 0 then 11 else M - 1), T⟩ : LocalDT) =
        ⟨if M = 0 then Y - 1 else Y, if M = 0 then 11 else M - 1,
          daysInMonth (if M = 0 then Y - 1 else Y) (if M = 0 then 11 else M - 1) - ((7 - D.toNat : Nat) : Int), T⟩
    rw [hday]

lemma jsSetMonth_back (now : LocalDT) (h : ValidDT now) :
    (1 ≤ now.month → now.day ≤ daysInMonth now.year (now.month - 1) →
      jsSetMonth now (now.month - 1) = ⟨now.year, now.month - 1, now.day, now.tod⟩)
    ∧ (now.month = 0 →
      jsSetMonth now (now.month - 1) = ⟨now.year - 1, 11, now.day, now.tod⟩) := by
  obtain ⟨Y, M, D, T⟩ := now
  obtain ⟨h1, h2, h3, h4, h5, h6⟩ := h
  have h3' : (1 : Int) ≤ D := h3
  constructor
  · intro hm1 hday
    have hm1' : (1 : Int) ≤ M := hm1
    have hm2' : M ≤ (11 : Int) := h2
    have hday' : D ≤ daysInMonth Y (M - 1) := hday
    show jsSetMonth ⟨Y, M, D, T⟩ (M - 1) = ⟨Y, M - 1, D, T⟩
    simp only [jsSetMonth, mkLocalDate]
    have e1 : Y + (M - 1) / 12 = Y := by omega
    have e2 : (M - 1) % 12 = M - 1 := by omega
    rw [e1, e2, normDayFuel_fix _ _ _ _ h3' hday']
  · intro hm0
    have hm0' : M = (0 : Int) := hm0
    subst hm0'
    show jsSetMonth ⟨Y, 0, D, T⟩ (0 - 1) = ⟨Y - 1, 11, D, T⟩
    simp only [jsSetMonth, mkLocalDate]
    have ed : Y + ((0 : Int) - 1) / 12 = Y - 1 := by
      have : ((0 : Int) - 1) / 12 = -1 := by decide
      rw [this]
      ring
    have em : ((0 : Int) - 1) % 12 = 11 := by decide
    have hday : D ≤ daysInMonth (Y - 1) 11 := by
      rw [daysInMonth_eleven]
      have h40 : D ≤ daysInMonth Y 0 := h4
      rw [daysInMonth_zero] at h40
      omega
    rw [ed, em, normDayFuel_fix _ _ _ _ h3' hday]

/-- C9: at every valid local instant, `getDateRange` maps `all` to the empty
filter, `today` to a range starting at local midnight of the current date,
`week` to a range starting exactly 7 calendar days before now (same time of
day), and `month` to a range whose start has the month decremented by one —
keeping year and day when the target month is long enough, and rolling
January over to December of the prior year; every bounded period ends at
now. -/
theorem getDateRange_spec (now : LocalDT) (h : ValidDT now) :
    getDateRange "all" now = { startDate := none, endDate := none }
    ∧ getDateRange "today" now =
        { startDate := some ⟨now.year, now.month, now.day, 0⟩, endDate := some now }
    ∧ getDateRange "week" now =
        { startDate := some (prevDay^[7] now), endDate := some now }
    ∧ (getDateRange "month" now).endDate = some now
    ∧ (1 ≤ now.month → now.day ≤ daysInMonth now.year (now.month - 1) →
        (getDateRange "month" now).startDate =
          some ⟨now.year, now.month - 1, now.day, now.tod⟩)
    ∧ (now.month = 0 →
        (getDateRange "month" now).startDate =
          some ⟨now.year - 1, 11, now.day, now.tod⟩) := by
  have hall : getDateRange "all" now = { startDate := none, endDate := none } := by
    unfold getDateRange
    rw [if_neg (by decide), if_neg (by decide), if_neg (by decide)]
  have htoday : getDateRange "today" now =
      { startDate := some (atMidnight now), endDate := some now } := by
    unfold getDateRange
    rw [if_pos rfl]
  have hweek : getDateRange "week" now =
      { startDate := some (jsSetDate now (now.day - 7)), endDate := some now } := by
    unfold getDateRange
    rw [if_neg (by decide), if_pos rfl]
  have hmonth : getDateRange "month" now =
      { startDate := some (jsSetMonth now (now.month - 1)), endDate := some now } := by
    unfold getDateRange
    rw [if_neg (by decide), if_neg (by decide), if_pos rfl]
  refine ⟨hall, ?_, ?_, ?_, ?_, ?_⟩
  · rw [htoday, atMidnight_eq now h]
  · rw [hweek, jsSetDate_week now h]
  · rw [hmonth]
  · intro hm1 hday
    rw [hmonth]
    show some (jsSetMonth now (now.month - 1)) = _
    rw [(jsSetMonth_back now h).1 hm1 hday]
  · intro hm0
    rw [hmonth]
    show some (jsSetMonth now (now.month - 1)) = _
    rw [(jsSetMonth_back now h).2 hm0]

/-- Witness: the date ranges at 01:00 (3600000 ms) local time on
2026-01-15 — January rolls over to December 2025, and the week start is the
8th at the same time of day. -/
theorem getDateRange_spec_witness :
    getDateRange "all" ⟨2026, 0, 15, 3600000⟩ = { startDate := none, endDate := none }
    ∧ getDateRange "today" ⟨2026, 0, 15, 3600000⟩ =
        { startDate := some ⟨2026, 0, 15, 0⟩, endDate := some ⟨2026, 0, 15, 3600000⟩ }
    ∧ getDateRange "week" ⟨2026, 0, 15, 3600000⟩ =
        { startDate := some (prevDay^[7] ⟨2026, 0, 15, 3600000⟩),
          endDate := some ⟨2026, 0, 15, 3600000⟩ }
    ∧ prevDay^[7] (⟨2026, 0, 15, 3600000⟩ : LocalDT) = ⟨2026, 0, 8, 3600000⟩
    ∧ (getDateRange "month" ⟨2026, 0, 15, 3600000⟩).startDate =
        some ⟨2025, 11, 15, 3600000⟩ := by
  have h := getDateRange_spec ⟨2026, 0, 15, 3600000⟩ (by decide)
  exact ⟨h.1, h.2.1, h.2.2.1, by decide, h.2.2.2.2.2 rfl⟩

/-! ### The /analyze provider fallback (C1) -/

/-- C1: the `/analyze` loop tries DeepSeek, Qwen, Gemini in that fixed
order and never invokes `analyzeUser` of a provider whose `isAvailable()`
is false; it stops at the first provider whose call returns, invoking none
after it; and when every attempted provider throws, the surfaced error is
the distinguished no-alternative message exactly when DeepSeek threw the
insufficient-balance kind while both Qwen and Gemini are unavailable, and
otherwise the last recorded provider error. -/
theorem analyze_fallback_spec (env : ProvEnv) :
    (∀ p, p ∈ (analyzeLoop env).invoked → env.avail p = true)
    ∧ (∀ a, env.deepseekAvail = true → env.deepseekResult = .ok a →
        (analyzeLoop env).analysis = a ∧ (analyzeLoop env).invoked = [ProvName.DeepSeek])
    ∧ (∀ a, env.qwenAvail = true → env.qwenResult = .ok a →
        (env.deepseekAvail = true → ∃ e, env.deepseekResult = .error e) →
        (analyzeLoop env).analysis = a
        ∧ (analyzeLoop env).invoked.getLast? = some ProvName.Qwen
        ∧ ProvName.Gemini ∉ (analyzeLoop env).invoked)
    ∧ (∀ a, env.geminiAvail = true → env.geminiResult = .ok a →
        (env.deepseekAvail = true → ∃ e, env.deepseekResult = .error e) →
        (env.qwenAvail = true → ∃ e, env.qwenResult = .error e) →
        (analyzeLoop env).analysis = a
        ∧ (analyzeLoop env).invoked.getLast? = some ProvName.Gemini)
    ∧ (∀ e, env.deepseekAvail = true → env.deepseekResult = .error e →
        strContains e "INSUFFICIENT_BALANCE" = true →
        env.qwenAvail = false → env.geminiAvail = false →
        surfaceAnalyze env = .error noAltMessage)
    ∧ (∀ e, env.deepseekAvail = true → env.deepseekResult = .error e →
        strContains e "INSUFFICIENT_BALANCE" = false →
        env.qwenAvail = false → env.geminiAvail = false →
        surfaceAnalyze env = .error e)
    ∧ (∀ e, env.qwenAvail = true → env.qwenResult = .error e →
        (env.deepseekAvail = true → ∃ e2, env.deepseekResult = .error e2) →
        env.geminiAvail = false →
        surfaceAnalyze env = .error e)
    ∧ (∀ e, env.geminiAvail = true → env.geminiResult = .error e →
        (env.deepseekAvail = true → ∃ e2, env.deepseekResult = .error e2) →
        (env.qwenAvail = true → ∃ e2, env.qwenResult = .error e2) →
        surfaceAnalyze env = .error e) := by
  obtain ⟨dA, qA, gA, dR, qR, gR⟩ := env
  refine ⟨?_, ?_, ?_, ?_, ?_, ?_, ?_, ?_⟩
  · intro p
    cases dA <;> cases qA <;> cases gA <;> cases dR <;> cases qR <;> cases gR <;> cases p <;>
      simp [analyzeLoop, runProv, loopInit, ProvEnv.avail, ProvEnv.result]
  · intro a hd hres
    subst hd
    subst hres
    simp [analyzeLoop, runProv, loopInit, ProvEnv.avail, ProvEnv.result]
  · intro a hq hres himp
    subst hq
    subst hres
    cases dA with
    | false => simp [analyzeLoop, runProv, loopInit, ProvEnv.avail, ProvEnv.result]
    | true =>
      obtain ⟨e, he⟩ := himp rfl
      subst he
      simp [analyzeLoop, runProv, loopInit, ProvEnv.avail, ProvEnv.result]
  · intro a hg hres himpd himpq
    subst hg
    subst hres
    cases dA with
    | false =>
      cases qA with
      | false => simp [analyzeLoop, runProv, loopInit, ProvEnv.avail, ProvEnv.result]
      | true =>
        obtain ⟨e, he⟩ := himpq rfl
        subst he
        simp [analyzeLoop, runProv, loopInit, ProvEnv.avail, ProvEnv.result]
    | true =>
      obtain ⟨e, he⟩ := himpd rfl
      subst he
      cases qA with
      | false => simp [analyzeLoop, runProv, loopInit, ProvEnv.avail, ProvEnv.result]
      | true =>
        obtain ⟨e2, he2⟩ := himpq rfl
        subst he2
        simp [analyzeLoop, runProv, loopInit, ProvEnv.avail, ProvEnv.result]
  · intro e hd hres hcont hq hg
    subst hd
    subst hres
    subst hq
    subst hg
    simp [surfaceAnalyze, analyzeLoop, runProv, loopInit, ProvEnv.avail, ProvEnv.result, hcont]
  · intro e hd hres hcont hq hg
    subst hd
    subst hres
    subst hq
    subst hg
    simp [surfaceAnalyze, analyzeLoop, runProv, loopInit, ProvEnv.avail, ProvEnv.result, hcont]
  · intro e hq hres himp hg
    subst hq
    subst hres
    subst hg
    cases dA with
    | false => simp [surfaceAnalyze, analyzeLoop, runProv, loopInit, ProvEnv.avail, ProvEnv.result]
    | true =>
      obtain ⟨e2, he2⟩ := himp rfl
      subst he2
      simp [surfaceAnalyze, analyzeLoop, runProv, loopInit, ProvEnv.avail, ProvEnv.result]
  · intro e hg hres himpd himpq
    subst hg
    subst hres
    cases dA with
    | false =>
      cases qA with
      | false => simp [surfaceAnalyze, analyzeLoop, runProv, loopInit, ProvEnv.avail, ProvEnv.result]
      | true =>
        obtain ⟨e2, he2⟩ := himpq rfl
        subst he2
        simp [surfaceAnalyze, analyzeLoop, runProv, loopInit, ProvEnv.avail, ProvEnv.result]
    | true =>
      obtain ⟨e2, he2⟩ := himpd rfl
      subst he2
      cases qA with
      | false => simp [surfaceAnalyze, analyzeLoop, runProv, loopInit, ProvEnv.avail, ProvEnv.result]
      | true =>
        obtain ⟨e3, he3⟩ := himpq rfl
        subst he3
        simp [surfaceAnalyze, analyzeLoop, runProv, loopInit, ProvEnv.avail, ProvEnv.result]

/-- Witness: DeepSeek available but failing with the insufficient-balance
kind while Qwen and Gemini are unavailable surfaces the distinguished
no-alternative message. -/
theorem analyze_fallback_spec_witness :
    surfaceAnalyze
      { deepseekAvail := true, qwenAvail := false, geminiAvail := false,
        deepseekResult := .error "DEEPSEEK_INSUFFICIENT_BALANCE",
        qwenResult := .ok none, geminiResult := .ok none } = .error noAltMessage := by
  exact (analyze_fallback_spec
      { deepseekAvail := true, qwenAvail := false, geminiAvail := false,
        deepseekResult := .error "DEEPSEEK_INSUFFICIENT_BALANCE",
        qwenResult := .ok none, geminiResult := .ok none }).2.2.2.2.1
    "DEEPSEEK_INSUFFICIENT_BALANCE" rfl rfl (by decide) rfl rfl

end TgAnalytics
